import Mathlib

/-!
# Landsat metadata API: containment rewrite and post-filter

A shallow embedding of `src/api.js` (the Express handler registered by `Endpoint`,
`TryToBuildElasticsearchParams`, `TrySearch`, `ApiError` and `responseFilter`).

Conventions of the embedding

* A JavaScript string is a `List Char`.  The pattern `containsPattern` only
  inspects ASCII letters, digits, punctuation and the white space class, all of
  which are single UTF-16 code units, so matching over code points agrees with
  matching over code units.
* JavaScript numbers that the handler manipulates (`skip`, `limit`, totals) are
  integers; footprint coordinates are exact rationals.
* `undefined` is explicit (`JsVal.undefined`, or `none` for an absent field).
* The first call of `response.json(status, body)` is the `Sent` record of the
  request; a call on a response that was sent already raises and sends nothing.
  An exception that escapes the promise callback is recorded in
  `Outcome.thrown`.
-/

namespace LandsatApi

/-! ## Strings and the pattern `containsPattern` -/

/-- The class `\d` of a JavaScript regular expression: the ten ASCII digits. -/
def isDigit (c : Char) : Bool :=
  decide (48 ≤ c.toNat) && decide (c.toNat ≤ 57)

/-- The class `\s` of a JavaScript regular expression: white space and line
terminators of ECMAScript. -/
def isSpace (c : Char) : Bool :=
  decide (c.toNat ∈ [9, 10, 11, 12, 13, 32, 160, 5760, 8192, 8193, 8194, 8195, 8196,
    8197, 8198, 8199, 8200, 8201, 8202, 8232, 8233, 8239, 8287, 12288, 65279])

/-- The literal `contains:` of the pattern. -/
def containsLit : List Char := "contains:".toList

/-- Consume the literal `lit` at the head of `s`; the remainder on success. -/
def dropLiteral : List Char → List Char → Option (List Char)
  | [], s => some s
  | _ :: _, [] => none
  | a :: lit, c :: s => if a = c then dropLiteral lit s else none

/-- The sub-pattern `\d+(?:\.\d*)?` anchored at the head of `body`, every
quantifier greedy: the matched text and the remainder. -/
def matchUnsigned (body : List Char) : Option (List Char × List Char) :=
  let ip := body.takeWhile isDigit
  let r := body.dropWhile isDigit
  if ip = [] then none
  else if r.head? = some '.' then
    some (ip ++ '.' :: r.tail.takeWhile isDigit, r.tail.dropWhile isDigit)
  else some (ip, r)

/-- The sub-pattern `-?\d+(?:\.\d*)?` anchored at the head of `s`, every
quantifier greedy: the matched numeral and the remainder.  A shorter alternative
reached by backtracking never lets the whole pattern succeed where the greedy
one fails, because the only thing that follows a numeral in `containsPattern`
is a comma or the end of the pattern. -/
def matchNumber (s : List Char) : Option (List Char × List Char) :=
  if s.head? = some '-' then
    match matchUnsigned s.tail with
    | some (n, r) => some ('-' :: n, r)
    | none => none
  else matchUnsigned s

/-- The part `contains:(-?\d+(?:\.\d*)?,-?\d+(?:\.\d*)?)` anchored at the head of
`s`: capture group 2 and the remainder of the string. -/
def matchCore (s : List Char) : Option (List Char × List Char) :=
  match dropLiteral containsLit s with
  | none => none
  | some r0 =>
    match matchNumber r0 with
    | none => none
    | some (n1, r1) =>
      match r1 with
      | [] => none
      | c :: r2 =>
        if c = ',' then
          match matchNumber r2 with
          | none => none
          | some (n2, r3) => some (n1 ++ ',' :: n2, r3)
        else none

/-- The group `(\sAND\s)` anchored at the head of `s`. -/
def matchConj (s : List Char) : Option (List Char × List Char) :=
  match s with
  | a :: b :: c :: d :: e :: r =>
    if isSpace a && b = 'A' && c = 'N' && d = 'D' && isSpace e then
      some ([a, b, c, d, e], r)
    else none
  | _ => none

/-- The whole pattern `/(\sAND\s)?contains:(...)/` anchored at the head of `s`:
capture group 1 (`none` when the optional group did not take part), capture
group 2 and the remainder.  The optional group is tried first, and skipped when
the rest of the pattern fails after it. -/
def matchAt (s : List Char) : Option (Option (List Char) × List Char × List Char) :=
  match matchConj s with
  | some (g1, r) =>
    match matchCore r with
    | some (g2, r2) => some (some g1, g2, r2)
    | none =>
      match matchCore s with
      | some (g2, r2) => some (none, g2, r2)
      | none => none
  | none =>
    match matchCore s with
    | some (g2, r2) => some (none, g2, r2)
    | none => none

/-- The result of `RegExp.prototype.exec` for `containsPattern`: the text before
the match, the two capture groups and the text after the match. -/
structure Match where
  before : List Char
  g1 : Option (List Char)
  g2 : List Char
  after : List Char
deriving DecidableEq, Repr

/-- The pattern `containsPattern` applied to `s`: the leftmost match. -/
def containsPattern : List Char → Option Match
  | [] => none
  | c :: cs =>
    match matchAt (c :: cs) with
    | some (g1, g2, r) => some ⟨[], g1, g2, r⟩
    | none =>
      match containsPattern cs with
      | some m => some ⟨c :: m.before, m.g1, m.g2, m.after⟩
      | none => none

/-- The method `String.prototype.split(',')`. -/
def splitComma : List Char → List (List Char)
  | [] => [[]]
  | c :: cs =>
    if c = ',' then [] :: splitComma cs
    else
      match splitComma cs with
      | [] => [[c]]
      | h :: t => (c :: h) :: t

/-- An array element used in a string concatenation: a missing element reads
as `undefined`. -/
def elemText (a : List (List Char)) (i : Nat) : List Char :=
  a.getD i "undefined".toList

/-- The replacement text built at lines 261-265 for the point `cLonLat`, after
the leading `$1`. -/
def rangeClauses (cLonLat : List (List Char)) : List Char :=
  "upperLeftCornerLatitude:[".toList ++ elemText cLonLat 1 ++
  " TO 1000] AND lowerRightCornerLatitude:[-1000 TO ".toList ++ elemText cLonLat 1 ++
  "] AND lowerLeftCornerLongitude:[-1000 TO ".toList ++ elemText cLonLat 0 ++
  "] AND upperRightCornerLongitude:[".toList ++ elemText cLonLat 0 ++
  " TO 1000]".toList

/-- The call `search.replace(containsPattern, '$1' + ranges)` for a string in
which the pattern matched as `m`: the first match only (the pattern has no `g`
flag); `$1` stands for group 1, or for the empty string when the group did not
take part.  The numerals spliced into the replacement hold no `$`. -/
def replaceMatch (m : Match) (cLonLat : List (List Char)) : List Char :=
  m.before ++ (m.g1.getD [] ++ rangeClauses cLonLat) ++ m.after

/-! ## JavaScript values -/

/-- The JavaScript values that travel through the handler. -/
inductive JsVal where
  | undefined
  | bool (b : Bool)
  | num (n : Int)
  | str (s : List Char)
deriving DecidableEq, Repr

/-- Truthiness of a value, as tested by `!x` and `x || y`. -/
def JsVal.truthy : JsVal → Bool
  | .undefined => false
  | .bool b => b
  | .num n => decide (n ≠ 0)
  | .str s => !s.isEmpty

/-- The value of a run of decimal digits. -/
def digitsVal (ds : List Char) : Nat :=
  ds.foldl (fun n c => 10 * n + (c.toNat - 48)) 0

/-- The numeric value of a string of the shape `\d+(?:\.\d*)?`; `none` is NaN. -/
def unsignedValue (s : List Char) : Option ℚ :=
  let ip := s.takeWhile isDigit
  let r := s.dropWhile isDigit
  if ip = [] then none
  else
    match r with
    | [] => some (digitsVal ip : ℚ)
    | c :: fp =>
      if c = '.' ∧ fp.all isDigit = true then
        some ((digitsVal ip : ℚ) + (digitsVal fp : ℚ) / (10 : ℚ) ^ fp.length)
      else none

/-- The coercion of a string to a number by a comparison, for the numerals that
`containsPattern` captures (`-?\d+(?:\.\d*)?`), with their exact decimal value;
`none` is NaN.  The handler applies it to the two captures of the pattern only;
other numeric literal forms of JavaScript are outside its domain. -/
def toNumber (s : List Char) : Option ℚ :=
  match s with
  | [] => none
  | c :: t => if c = '-' then (unsignedValue t).map (fun q => -q) else unsignedValue s

/-- What `Array.prototype.slice` makes of its `end` argument
(ToIntegerOrInfinity): an integer, or one of the two infinities. -/
inductive SliceEnd where
  | negInf
  | fin (n : Int)
  | posInf
deriving DecidableEq, Repr

/-- The reading of a value as the `end` argument of `Array.prototype.slice`.
A boolean counts as 0 or 1 and a number as itself.  The coercion of a string is
the one of the language (ToNumber on a floating point literal), which is not
part of the sources: it is the parameter `stringEnd`.  An `undefined` end is
dealt with by `jsSlice0`. -/
def JsVal.sliceEnd (stringEnd : List Char → SliceEnd) : JsVal → SliceEnd
  | .undefined => SliceEnd.posInf
  | .bool b => SliceEnd.fin (if b then 1 else 0)
  | .num n => SliceEnd.fin n
  | .str s => stringEnd s

/-- The call `xs.slice(0, end)`: an `undefined` end is the length, a negative end
counts from the back, and the end is clamped to the length. -/
def jsSlice0 {α : Type} (stringEnd : List Char → SliceEnd) (xs : List α)
    (limit : JsVal) : List α :=
  match limit with
  | .undefined => xs
  | v =>
    match v.sliceEnd stringEnd with
    | .negInf => xs.take 0
    | .fin n =>
      if n < 0 then xs.take (Int.toNat ((xs.length : Int) + n))
      else xs.take (Int.toNat n)
    | .posInf => xs

/-! ## Data model -/

/-- The validated request parameters, the object `params` of the handler. -/
structure Params where
  search : Option (List Char)
  count : JsVal
  skip : JsVal
  limit : JsVal
  userLimit : JsVal
deriving DecidableEq, Repr

/-- A footprint coordinate read off a result object: `none` when the field is
absent (`undefined`, NaN in arithmetic). -/
abbrev Coord := Option ℚ

/-- The `_source` of an engine hit: the eight footprint coordinates and a
scene identifier standing for the remaining metadata fields. -/
structure SceneRecord where
  sceneID : List Char
  upperLeftCornerLongitude : ℚ
  upperLeftCornerLatitude : ℚ
  upperRightCornerLongitude : ℚ
  upperRightCornerLatitude : ℚ
  lowerLeftCornerLongitude : ℚ
  lowerLeftCornerLatitude : ℚ
  lowerRightCornerLongitude : ℚ
  lowerRightCornerLatitude : ℚ
deriving DecidableEq

/-- A bucket of a term facet. -/
structure TermBucket where
  term : List Char
  count : Int
deriving DecidableEq

/-- A bucket of a date facet. -/
structure DateEntry where
  time : JsVal
  count : Int
deriving DecidableEq

/-- An element of `response_json.results`. -/
inductive Item where
  | scene (r : SceneRecord)
  | term (b : TermBucket)
  | entry (e : DateEntry)
deriving DecidableEq

/-- The block `meta.results` of a hit listing. -/
structure MetaResults where
  skip : JsVal
  limit : JsVal
  total : JsVal
deriving DecidableEq

/-- The object `response_json.meta`: the three fields cloned from `META` and
the block `results`, present in a hit listing only. -/
structure Meta where
  credit : List Char
  website : List Char
  license : List Char
  results : Option MetaResults
deriving DecidableEq

/-- The constant `META`. -/
def META : Meta :=
  { credit := "Astro Digital".toList
    website := "https://api.astrodigital.com/v1".toList
    license := "http://creativecommons.org/publicdomain/zero/1.0/legalcode".toList
    results := none }

/-- The object `response_json`. -/
structure ResponseJson where
  «meta» : Meta
  results : List Item
deriving DecidableEq

/-- The keys of `HTTP_CODE`. -/
inductive Code where
  | OK
  | BAD_REQUEST
  | NOT_FOUND
  | SERVER_ERROR
deriving DecidableEq, Repr

/-- The table `HTTP_CODE`. -/
def HTTP_CODE : Code → Nat
  | .OK => 200
  | .BAD_REQUEST => 400
  | .NOT_FOUND => 404
  | .SERVER_ERROR => 500

/-- The body handed to `response.json`. -/
inductive Body where
  | error (code : Code) (message : List Char)
  | json (r : ResponseJson)
deriving DecidableEq

/-- One call `response.json(status, body)`. -/
structure Sent where
  status : Nat
  body : Body
deriving DecidableEq

/-- The function `ApiError`: the error envelope sent with the status of `code`. -/
def ApiError (code : Code) (message : List Char) : Sent :=
  { status := HTTP_CODE code, body := Body.error code message }

/-- An exception object with the two properties the handler reads. -/
structure JsError where
  name : List Char
  message : List Char
deriving DecidableEq

/-- An exception raised by the JavaScript run time inside the handler. -/
inductive JsException where
  | typeError
  | headersSent
deriving DecidableEq, Repr

/-- What a request produced: the responses sent, in order, and the exception
that ended the callback, if any. -/
structure Outcome where
  sent : List Sent
  thrown : Option JsException
deriving DecidableEq

/-- The object `es_search_params`; `from_` and `size` are absent in count mode. -/
structure EsSearchParams where
  index : List Char
  body : List Char
  from_ : Option JsVal
  size : Option JsVal
deriving DecidableEq

/-- The facet `body.facets.count` of an engine answer. -/
structure FacetCount where
  terms : Option (List TermBucket)
  entries : Option (List DateEntry)
deriving DecidableEq

/-- The engine answer `body`: the `_source` of each hit, `hits.total`, and the
facets when the engine sent any. -/
structure EsBody where
  hits : List SceneRecord
  total : Int
  facets : Option FacetCount
deriving DecidableEq

/-- The collaborators of `src/api.js` that are not part of the sources: the
environment, the modules `api_request.js` and `elasticsearch_query.js`, the
packages `turf-inside` and `moment`, and the engine client. -/
structure Externals where
  /-- The variable `process.env.QUERY_LIMIT`. -/
  QUERY_LIMIT : Option (List Char)
  /-- The function `api_request.CheckParams` on the raw query. -/
  CheckParams : List (List Char × List Char) → Except JsError Params
  /-- The constant `api_request.API_REQUEST_ERROR`. -/
  API_REQUEST_ERROR : List Char
  /-- The function `elasticsearch_query.BuildQuery`, with `toString` applied. -/
  BuildQuery : Params → Except JsError (List Char)
  /-- The constant `elasticsearch_query.ELASTICSEARCH_QUERY_ERROR`. -/
  ELASTICSEARCH_QUERY_ERROR : List Char
  /-- The function `inside(point(cLonLat), polygon([ring]))`. -/
  inside : List (List Char) → List (Coord × Coord) → Bool
  /-- The expression `moment(t).format('YYYYMMDD')`. -/
  formatDay : JsVal → List Char
  /-- The coercion of a string used as the `end` of `slice`. -/
  stringEnd : List Char → SliceEnd
  /-- The call `client.search`, resolved or rejected. -/
  search : EsSearchParams → Except JsError EsBody

/-! ## The handler -/

/-- The function `TryToCheckApiParams`: the validated parameters, or the
`BAD_REQUEST` envelope that was sent (and `null` returned). -/
def TryToCheckApiParams (ext : Externals) (query : List (List Char × List Char)) :
    Except Sent Params :=
  match ext.CheckParams query with
  | .ok params => .ok params
  | .error e =>
    if e.name = ext.API_REQUEST_ERROR then .error (ApiError Code.BAD_REQUEST e.message)
    else .error (ApiError Code.BAD_REQUEST [])

/-- The text that `containsPattern.test(params.search)` sees: an absent clause
is converted to the string `undefined`. -/
def searchText (search : Option (List Char)) : List Char :=
  search.getD "undefined".toList

/-- The limit sent to the engine for a containment query, line 268:
`process.env.QUERY_LIMIT || 1000000000`. -/
def queryCeiling (ext : Externals) : JsVal :=
  match ext.QUERY_LIMIT with
  | some s => if (JsVal.str s).truthy then JsVal.str s else JsVal.num 1000000000
  | none => JsVal.num 1000000000

/-- Lines 255-269 of `Endpoint`: when the clause matches `containsPattern`, the
point `cLonLat` is extracted, the clause is rewritten and the limit is split
into `userLimit` and the ceiling; otherwise nothing changes and `cLonLat` stays
`undefined`. -/
def extractContains (ext : Externals) (params : Params) :
    Params × Option (List (List Char)) :=
  match containsPattern (searchText params.search) with
  | some m =>
    let cLonLat := splitComma m.g2
    ({ params with
        search := some (replaceMatch m cLonLat)
        userLimit := params.limit
        limit := queryCeiling ext },
     some cLonLat)
  | none => (params, none)

/-- The function `TryToBuildElasticsearchParams`: the engine parameters, or the
`BAD_REQUEST` envelope that was sent (and `null` returned). -/
def TryToBuildElasticsearchParams (ext : Externals) (params : Params)
    (elasticsearch_index : List Char) : Except Sent EsSearchParams :=
  match ext.BuildQuery params with
  | .error e =>
    if e.name = ext.ELASTICSEARCH_QUERY_ERROR then
      .error (ApiError Code.BAD_REQUEST e.message)
    else .error (ApiError Code.BAD_REQUEST [])
  | .ok es_query =>
    if !params.count.truthy then
      .ok { index := elasticsearch_index, body := es_query,
            from_ := some params.skip, size := some params.limit }
    else
      .ok { index := elasticsearch_index, body := es_query, from_ := none, size := none }

/-- The ring handed to `polygon` at lines 294-300: lower left, upper left, upper
right, lower right, lower left again.  A result without the corner fields (a
facet bucket) yields `undefined` coordinates. -/
def footprint (result : Item) : List (Coord × Coord) :=
  match result with
  | .scene r =>
    [(some r.lowerLeftCornerLongitude, some r.lowerLeftCornerLatitude),
     (some r.upperLeftCornerLongitude, some r.upperLeftCornerLatitude),
     (some r.upperRightCornerLongitude, some r.upperRightCornerLatitude),
     (some r.lowerRightCornerLongitude, some r.lowerRightCornerLatitude),
     (some r.lowerLeftCornerLongitude, some r.lowerLeftCornerLatitude)]
  | _ => [(none, none), (none, none), (none, none), (none, none), (none, none)]

/-- The function `responseFilter`.  With a point, the results are filtered by
the point-in-polygon test, `meta.results.limit` and `meta.results.total` are
overwritten and the list is sliced; the assignment to `meta.results.limit`
raises a `TypeError` when `meta` has no `results` block. -/
def responseFilter (inside : List (List Char) → List (Coord × Coord) → Bool)
    (stringEnd : List Char → SliceEnd)
    (response_json : ResponseJson) (cLonLat : Option (List (List Char)))
    (limit : JsVal) : Except JsException ResponseJson :=
  match cLonLat with
  | none => .ok response_json
  | some thePoint =>
    let filtered := response_json.results.filter
      (fun result => inside thePoint (footprint result))
    match response_json.meta.results with
    | none => .error JsException.typeError
    | some block =>
      .ok { «meta» := { response_json.meta with
                          results := some { block with
                            limit := limit
                            total := JsVal.num (filtered.length : Int) } }
            results := jsSlice0 stringEnd filtered limit }

/-- Modelled from the spec: the method `response.json` of the Express response
object, which is not part of the sources.  The first call sends the response;
a call on a response that was sent already raises an exception (the headers
cannot be set again) and sends nothing, so that "a request either fully
succeeds or returns a single error object". -/
def sendJson (sent : List Sent) (s : Sent) : Outcome :=
  match sent with
  | [] => { sent := [s], thrown := none }
  | _ :: _ => { sent := sent, thrown := some JsException.headersSent }

/-- The tail of a success branch of `TrySearch`: `response.json(HTTP_CODE.OK,
responseFilter(...))` after the emissions `sent` made so far; the argument is
evaluated first, so an exception of `responseFilter` comes before the call. -/
def sendFiltered (ext : Externals) (sent : List Sent) (response_json : ResponseJson)
    (cLonLat : Option (List (List Char))) (limit : JsVal) : Outcome :=
  match responseFilter ext.inside ext.stringEnd response_json cLonLat limit with
  | .ok r => sendJson sent { status := HTTP_CODE Code.OK, body := Body.json r }
  | .error e => { sent := sent, thrown := some e }

/-- The function `TrySearch`.  The test of line 184 sends the `NOT_FOUND`
envelope and the callback carries on with the statement that follows it; the
call of `response.json` it reaches then finds the response already sent. -/
def TrySearch (ext : Externals) (params : Params) (es_search_params : EsSearchParams)
    (cLonLat : Option (List (List Char))) : Outcome :=
  match ext.search es_search_params with
  | .error _ =>
    { sent := [ApiError Code.SERVER_ERROR "Check your request and try again".toList],
      thrown := none }
  | .ok body =>
    let sent0 : List Sent :=
      if body.hits.length = 0 then [ApiError Code.NOT_FOUND "No matches found!".toList]
      else []
    if !params.count.truthy then
      sendFiltered ext sent0
        { «meta» := { META with
                        results := some { skip := params.skip, limit := params.limit,
                                          total := JsVal.num body.total } }
          results := body.hits.map Item.scene }
        cLonLat params.userLimit
    else
      match body.facets with
      | none => { sent := sent0, thrown := some JsException.typeError }
      | some facet =>
        match facet.terms with
        | some terms =>
          if terms.length ≠ 0 then
            sendFiltered ext sent0 { «meta» := META, results := terms.map Item.term }
              cLonLat params.userLimit
          else
            sendJson sent0 (ApiError Code.NOT_FOUND "Nothing to count".toList)
        | none =>
          match facet.entries with
          | some entries =>
            if entries.length ≠ 0 then
              sendFiltered ext sent0
                { «meta» := META
                  results := entries.map (fun e =>
                    Item.entry { e with time := JsVal.str (ext.formatDay e.time) }) }
                cLonLat params.userLimit
            else
              sendJson sent0 (ApiError Code.NOT_FOUND "Nothing to count".toList)
          | none =>
            sendJson sent0 (ApiError Code.NOT_FOUND "Nothing to count".toList)

/-- The route handler registered by `Endpoint(noun)`, for a raw query. -/
def Endpoint (ext : Externals) (noun : List Char)
    (query : List (List Char × List Char)) : Outcome :=
  match TryToCheckApiParams ext query with
  | .error sent => { sent := [sent], thrown := none }
  | .ok params0 =>
    let (params, cLonLat) := extractContains ext params0
    match TryToBuildElasticsearchParams ext params noun with
    | .error sent => { sent := [sent], thrown := none }
    | .ok es_search_params => TrySearch ext params es_search_params cLonLat

/-! ## The point-in-polygon test -/

/-- Modelled from the spec: one step of the loop of `inRing` in the package
`turf-inside` (not part of the sources), on numeric operands: the edge from
`vj` to `vi` straddles the latitude of the point and the point lies to its left.
The quotient is only read when the edge straddles, so its denominator is not
zero there. -/
def edgeCrosses (px py : ℚ) (vi vj : ℚ × ℚ) : Bool :=
  (decide (vi.2 > py) != decide (vj.2 > py)) &&
    decide (px < (vj.1 - vi.1) * (py - vi.2) / (vj.2 - vi.2) + vi.1)

/-- Modelled from the spec: the same step of `turf-inside` on JavaScript
operands: a comparison with NaN is false, so an edge with an `undefined` operand
never counts. -/
def jsEdgeCrosses (px py : Coord) (vi vj : Coord × Coord) : Bool :=
  match px, py, vi, vj with
  | some x, some y, (some xi, some yi), (some xj, some yj) =>
    edgeCrosses x y (xi, yi) (xj, yj)
  | _, _, _, _ => false

/-- Modelled from the spec: the loop of `inRing` in `turf-inside`,
`for (i = 0, j = ring.length - 1; i < ring.length; j = i++)`: `vj` is the vertex
visited before, `acc` the flag `isInside`. -/
def inRingLoop (px py : Coord) : (Coord × Coord) → List (Coord × Coord) → Bool → Bool
  | _, [], acc => acc
  | vj, vi :: rest, acc =>
    inRingLoop px py vi rest (if jsEdgeCrosses px py vi vj then !acc else acc)

/-- Modelled from the spec: the ray casting test `inRing` of the package
`turf-inside`, which is not part of the sources; the spec names "a standard
point-in-polygon algorithm (ray casting or winding number)". -/
def inRing (px py : Coord) (ring : List (Coord × Coord)) : Bool :=
  match ring.getLast? with
  | none => false
  | some last => inRingLoop px py last ring false

/-- Modelled from the spec: the function `inside` of the package `turf-inside`
on the point `point(cLonLat)` and the single-ring polygon `polygon([ring])`,
with the two strings of `cLonLat` coerced to numbers by the comparisons. -/
def turfInside (cLonLat : List (List Char)) (ring : List (Coord × Coord)) : Bool :=
  inRing ((cLonLat.get? 0).bind toNumber) ((cLonLat.get? 1).bind toNumber) ring

/-- The orientation of a footprint for which the four corners named by the
rewrite are the extreme ones: the upper left corner is the northernmost, the
lower right the southernmost, the lower left the westernmost and the upper
right the easternmost. -/
def cornersExtreme (r : SceneRecord) : Prop :=
  (r.upperRightCornerLatitude ≤ r.upperLeftCornerLatitude ∧
    r.lowerLeftCornerLatitude ≤ r.upperLeftCornerLatitude ∧
    r.lowerRightCornerLatitude ≤ r.upperLeftCornerLatitude) ∧
  (r.lowerRightCornerLatitude ≤ r.upperRightCornerLatitude ∧
    r.lowerRightCornerLatitude ≤ r.lowerLeftCornerLatitude) ∧
  (r.lowerLeftCornerLongitude ≤ r.upperLeftCornerLongitude ∧
    r.lowerLeftCornerLongitude ≤ r.upperRightCornerLongitude ∧
    r.lowerLeftCornerLongitude ≤ r.lowerRightCornerLongitude) ∧
  (r.upperLeftCornerLongitude ≤ r.upperRightCornerLongitude ∧
    r.lowerRightCornerLongitude ≤ r.upperRightCornerLongitude)

/-! ## The form of a clause with one containment token -/

/-- The grammar `\d+(?:\.\d*)?`: at least one digit, and optionally a point
followed by digits. -/
def isUnsigned (body : List Char) : Bool :=
  let ip := body.takeWhile isDigit
  let r := body.dropWhile isDigit
  !ip.isEmpty && (r.isEmpty || (r.head? == some '.' && r.tail.all isDigit))

/-- The grammar of one coordinate, `-?\d+(?:\.\d*)?`: an optional minus sign
before an unsigned numeral. -/
def isNumeral (s : List Char) : Bool :=
  if s.head? = some '-' then isUnsigned s.tail else isUnsigned s

/-- The conjunction before a token: nothing, or `AND` between two white space
characters. -/
def isConj (A : List Char) : Bool :=
  match A with
  | [] => true
  | [a, b, c, d, e] => isSpace a && b = 'A' && c = 'N' && d = 'D' && isSpace e
  | _ => false

/-- The text `post` does not carry on the numeral `lat`: it does not start with
a digit, nor with a point when `lat` has none. -/
def endsNumeral (lat post : List Char) : Bool :=
  match post with
  | [] => true
  | c :: _ => !isDigit c && (lat.contains '.' || c != '.')

/-- The clause holds exactly one match of `containsPattern`: the pattern
matches, and it does not match again in the text after the first match. -/
def exactlyOneMatch (s : List Char) : Bool :=
  match containsPattern s with
  | some m => (containsPattern m.after).isNone
  | none => false

/-- The rewritten clause as the claim spells it: `pre`, the conjunction `A`, the
four range constraints built from `lat` and `lon`, and `post`. -/
def claimedClause (pre A lon lat post : List Char) : List Char :=
  pre ++ A ++ "upperLeftCornerLatitude:[".toList ++ lat ++
    " TO 1000] AND lowerRightCornerLatitude:[-1000 TO ".toList ++ lat ++
    "] AND lowerLeftCornerLongitude:[-1000 TO ".toList ++ lon ++
    "] AND upperRightCornerLongitude:[".toList ++ lon ++ " TO 1000]".toList ++ post

/-- The clause of the claim: `pre + A + "contains:" + lon + "," + lat + post`. -/
def tokenClause (pre A lon lat post : List Char) : List Char :=
  pre ++ A ++ "contains:".toList ++ lon ++ ",".toList ++ lat ++ post

/-! ## Sample data -/

/-- A footprint tilted like a descending pass: the upper left corner is the
northernmost, the upper right the easternmost, the lower right the southernmost
and the lower left the westernmost. -/
def descendingScene : SceneRecord :=
  { sceneID := "D".toList
    upperLeftCornerLongitude := 2, upperLeftCornerLatitude := 12
    upperRightCornerLongitude := 12, upperRightCornerLatitude := 10
    lowerLeftCornerLongitude := 0, lowerLeftCornerLatitude := 2
    lowerRightCornerLongitude := 10, lowerRightCornerLatitude := 0 }

/-- A footprint tilted the other way: the upper right corner is the
northernmost and the lower right the easternmost. -/
def tiltedScene : SceneRecord :=
  { sceneID := "T".toList
    upperLeftCornerLongitude := 0, upperLeftCornerLatitude := 10
    upperRightCornerLongitude := 10, upperRightCornerLatitude := 12
    lowerLeftCornerLongitude := 2, lowerLeftCornerLatitude := 0
    lowerRightCornerLongitude := 12, lowerRightCornerLatitude := 2 }

/-- Collaborators for the examples: no `QUERY_LIMIT` unless given, a query
builder that returns the clause as the query text, the ray casting test, and
an engine that answers every search with `body`. -/
def sampleExt (queryLimit : Option (List Char)) (params : Params) (body : EsBody) :
    Externals :=
  { QUERY_LIMIT := queryLimit
    CheckParams := fun _ => .ok params
    API_REQUEST_ERROR := "ApiRequestError".toList
    BuildQuery := fun p => .ok (searchText p.search)
    ELASTICSEARCH_QUERY_ERROR := "ElasticsearchQueryError".toList
    inside := turfInside
    formatDay := fun _ => "20150101".toList
    stringEnd := fun _ => SliceEnd.fin 0
    search := fun _ => .ok body }

/-- A hit-listing request for the point (9, 11) with `skip` 5 and `limit` 3. -/
def sampleParams : Params :=
  { search := some "contains:9,11".toList
    count := JsVal.undefined
    skip := JsVal.num 5
    limit := JsVal.num 3
    userLimit := JsVal.undefined }

/-- A count request for the point (9, 11). -/
def sampleCountParams : Params :=
  { search := some "contains:9,11".toList
    count := JsVal.str "satellite_name".toList
    skip := JsVal.num 0
    limit := JsVal.undefined
    userLimit := JsVal.undefined }

/-- A hit-listing request without a containment token. -/
def plainParams : Params :=
  { search := some "cloudCoverFull:[0 TO 20]".toList
    count := JsVal.undefined
    skip := JsVal.num 5
    limit := JsVal.num 3
    userLimit := JsVal.undefined }

/-- A hit listing of three scenes as assembled by `TrySearch`, with an engine
total of 40. -/
def sampleListing : ResponseJson :=
  { «meta» := { META with
                  results := some { skip := JsVal.num 0, limit := JsVal.num 1000000000,
                                    total := JsVal.num 40 } }
    results := [Item.scene tiltedScene, Item.scene descendingScene, Item.scene tiltedScene] }

/-! ## Evaluation lemmas for the sample data -/

theorem turfInside_tilted :
    turfInside ["9".toList, "11".toList] (footprint (Item.scene tiltedScene)) = true := by
  simp [turfInside, inRing, inRingLoop, footprint, tiltedScene, jsEdgeCrosses, edgeCrosses,
    toNumber, unsignedValue, digitsVal, isDigit]
  norm_num

theorem turfInside_descending :
    turfInside ["9".toList, "11".toList] (footprint (Item.scene descendingScene)) = false := by
  simp [turfInside, inRing, inRingLoop, footprint, descendingScene, jsEdgeCrosses,
    edgeCrosses, toNumber, unsignedValue, digitsVal, isDigit]
  norm_num

/-! ## The post-filter `responseFilter` -/

/-- The value of `responseFilter` on a response with a `results` block. -/
theorem responseFilter_some (inside : List (List Char) → List (Coord × Coord) → Bool)
    (stringEnd : List Char → SliceEnd)
    (response_json : ResponseJson) (block : MetaResults)
    (hblock : response_json.meta.results = some block)
    (cLonLat : List (List Char)) (limit : JsVal) :
    responseFilter inside stringEnd response_json (some cLonLat) limit =
      Except.ok
        { «meta» := { response_json.meta with
            results := some { block with
              limit := limit
              total := JsVal.num ((response_json.results.filter
                (fun result => inside cLonLat (footprint result))).length : Int) } }
          results := jsSlice0 stringEnd (response_json.results.filter
            (fun result => inside cLonLat (footprint result))) limit } := by
  simp only [responseFilter, hblock]

/-- The slice `xs.slice(0, L)` for an integer `L ≥ 0`. -/
theorem jsSlice0_num {α : Type} (stringEnd : List Char → SliceEnd) (xs : List α)
    (L : Int) (hL : 0 ≤ L) :
    jsSlice0 stringEnd xs (JsVal.num L) = xs.take L.toNat := by
  simp [jsSlice0, JsVal.sliceEnd, not_lt.mpr hL]

/-- C1: for a hit-listing response (its `meta` carries a `results` block), any
containment point and any limit, `responseFilter` succeeds and sets
`meta.results.total` to the number of input records whose footprint passes the
point-in-polygon test, counted on the whole filtered list, whatever total the
block held before. -/
theorem responseFilter_total (inside : List (List Char) → List (Coord × Coord) → Bool)
    (stringEnd : List Char → SliceEnd)
    (response_json : ResponseJson) (block : MetaResults)
    (hblock : response_json.meta.results = some block)
    (cLonLat : List (List Char)) (L : JsVal) :
    ∃ out, responseFilter inside stringEnd response_json (some cLonLat) L = Except.ok out ∧
      out.meta.results.map MetaResults.total =
        some (JsVal.num ((response_json.results.filter
          (fun result => inside cLonLat (footprint result))).length : Int)) := by
  simp [responseFilter, hblock]

/-- Witness of C1 on the sample listing, whose engine total is 40. -/
theorem responseFilter_total_witness :
    sampleListing.meta.results =
        some { skip := JsVal.num 0, limit := JsVal.num 1000000000, total := JsVal.num 40 } ∧
    ∃ out, responseFilter turfInside (fun _ => SliceEnd.fin 0) sampleListing
        (some ["9".toList, "11".toList]) (JsVal.num 1) = Except.ok out ∧
      out.meta.results.map MetaResults.total =
        some (JsVal.num ((sampleListing.results.filter
          (fun result => turfInside ["9".toList, "11".toList] (footprint result))).length
            : Int)) :=
  ⟨rfl, responseFilter_total turfInside _ sampleListing _ rfl _ _⟩

/-- C2: for a hit-listing response, any containment point and a numeric limit
`L ≥ 0`, the results returned by `responseFilter` are the first `L` of the input
records that pass the point-in-polygon test, in their original order; so there
are at most `L` of them, each passes the test, and `meta.results.limit` is `L`. -/
theorem responseFilter_results (inside : List (List Char) → List (Coord × Coord) → Bool)
    (stringEnd : List Char → SliceEnd)
    (response_json : ResponseJson) (block : MetaResults)
    (hblock : response_json.meta.results = some block)
    (cLonLat : List (List Char)) (L : Int) (hL : 0 ≤ L) :
    ∃ out, responseFilter inside stringEnd response_json (some cLonLat) (JsVal.num L)
        = Except.ok out ∧
      out.results = (response_json.results.filter
          (fun result => inside cLonLat (footprint result))).take L.toNat ∧
      (out.results.length : Int) ≤ L ∧
      (∀ result ∈ out.results, inside cLonLat (footprint result) = true) ∧
      out.meta.results.map MetaResults.limit = some (JsVal.num L) := by
  refine ⟨_, responseFilter_some inside stringEnd response_json block hblock cLonLat _,
    ?_, ?_, ?_, ?_⟩
  · exact jsSlice0_num stringEnd _ L hL
  · show ((jsSlice0 stringEnd _ (JsVal.num L)).length : Int) ≤ L
    rw [jsSlice0_num stringEnd _ L hL, List.length_take]
    have h1 : ((min L.toNat (response_json.results.filter
        (fun result => inside cLonLat (footprint result))).length : Nat) : Int)
        ≤ (L.toNat : Int) := by exact_mod_cast Nat.min_le_left _ _
    rw [Int.toNat_of_nonneg hL] at h1
    exact h1
  · intro result hres
    have hres2 : result ∈ jsSlice0 stringEnd (response_json.results.filter
        (fun result => inside cLonLat (footprint result))) (JsVal.num L) := hres
    rw [jsSlice0_num stringEnd _ L hL] at hres2
    have h2 := List.mem_of_mem_take hres2
    simpa using (List.mem_filter.mp h2).2
  · rfl

/-- Witness of C2 on the sample listing with limit 1. -/
theorem responseFilter_results_witness :
    sampleListing.meta.results =
        some { skip := JsVal.num 0, limit := JsVal.num 1000000000, total := JsVal.num 40 } ∧
    (0 : Int) ≤ 1 ∧
    ∃ out, responseFilter turfInside (fun _ => SliceEnd.fin 0) sampleListing
        (some ["9".toList, "11".toList]) (JsVal.num 1) = Except.ok out ∧
      out.results = (sampleListing.results.filter
          (fun result => turfInside ["9".toList, "11".toList] (footprint result))).take
            (1 : Int).toNat ∧
      (out.results.length : Int) ≤ 1 ∧
      (∀ result ∈ out.results,
        turfInside ["9".toList, "11".toList] (footprint result) = true) ∧
      out.meta.results.map MetaResults.limit = some (JsVal.num 1) :=
  ⟨rfl, by decide,
   responseFilter_results turfInside _ sampleListing _ rfl _ 1 (by decide)⟩

/-! ## The rewrite made by `Endpoint` -/

/-- C5: `Endpoint` extracts a containment point exactly when the original clause
matches `containsPattern`.  When it matches, `userLimit` is the original limit
and `limit` is the ceiling: `QUERY_LIMIT` when it is set to a non-empty string,
1000000000 when it is not set.  When it does not match, the parameters are left
as they were (so `search`, `skip` and `limit` are unchanged and no `userLimit`
is set) and no point is passed on. -/
theorem extractContains_frame (ext : Externals) (params : Params) :
    ((extractContains ext params).2.isSome =
        (containsPattern (searchText params.search)).isSome) ∧
    ((containsPattern (searchText params.search)).isSome = true →
        (extractContains ext params).1.userLimit = params.limit ∧
        (extractContains ext params).1.limit = queryCeiling ext ∧
        (∀ s, ext.QUERY_LIMIT = some s → s ≠ [] → queryCeiling ext = JsVal.str s) ∧
        (ext.QUERY_LIMIT = none → queryCeiling ext = JsVal.num 1000000000)) ∧
    ((containsPattern (searchText params.search)).isSome = false →
        (extractContains ext params).1 = params ∧
        (extractContains ext params).2 = none) := by
  refine ⟨?_, ?_, ?_⟩
  · unfold extractContains
    cases containsPattern (searchText params.search) <;> rfl
  · intro hm
    refine ⟨?_, ?_, ?_, ?_⟩
    · unfold extractContains
      cases hc : containsPattern (searchText params.search) with
      | none => rw [hc] at hm; cases hm
      | some m => rfl
    · unfold extractContains
      cases hc : containsPattern (searchText params.search) with
      | none => rw [hc] at hm; cases hm
      | some m => rfl
    · intro s hs hne
      cases s with
      | nil => exact absurd rfl hne
      | cons c t => simp [queryCeiling, hs, JsVal.truthy]
    · intro hn
      simp [queryCeiling, hn]
  · intro hm
    unfold extractContains
    cases hc : containsPattern (searchText params.search) with
    | none => exact ⟨rfl, rfl⟩
    | some m => rw [hc] at hm; cases hm

/-- Witness of C5: a request with a containment token and `QUERY_LIMIT` set to
500, and the same collaborators on a request without a token. -/
theorem extractContains_frame_witness :
    ((containsPattern (searchText sampleParams.search)).isSome = true ∧
      (extractContains (sampleExt (some "500".toList) sampleParams ⟨[], 0, none⟩)
        sampleParams).1.userLimit = JsVal.num 3 ∧
      (extractContains (sampleExt (some "500".toList) sampleParams ⟨[], 0, none⟩)
        sampleParams).1.limit = JsVal.str "500".toList) ∧
    ((containsPattern (searchText plainParams.search)).isSome = false ∧
      (extractContains (sampleExt (some "500".toList) sampleParams ⟨[], 0, none⟩)
        plainParams).1 = plainParams ∧
      (extractContains (sampleExt (some "500".toList) sampleParams ⟨[], 0, none⟩)
        plainParams).2 = none) := by
  have hmatch : (containsPattern (searchText sampleParams.search)).isSome = true := by decide
  have hplain : (containsPattern (searchText plainParams.search)).isSome = false := by decide
  have h1 := (extractContains_frame
    (sampleExt (some "500".toList) sampleParams ⟨[], 0, none⟩) sampleParams).2.1 hmatch
  have h2 := (extractContains_frame
    (sampleExt (some "500".toList) sampleParams ⟨[], 0, none⟩) plainParams).2.2 hplain
  refine ⟨⟨hmatch, h1.1, ?_⟩, ⟨hplain, h2.1, h2.2⟩⟩
  rw [h1.2.1]
  exact h1.2.2.1 "500".toList rfl (by decide)

/-- C6: for a hit-listing request (`count` falsy) whose clause holds no
containment token and for which `BuildQuery` succeeds, the engine parameters
built after the rewrite step carry `from` equal to the request's `skip` and
`size` equal to the request's `limit`. -/
theorem pagination_identity (ext : Externals) (noun : List Char) (params : Params)
    (es_query : List Char)
    (hcount : params.count.truthy = false)
    (hplain : containsPattern (searchText params.search) = none)
    (hbuild : ext.BuildQuery params = Except.ok es_query) :
    TryToBuildElasticsearchParams ext (extractContains ext params).1 noun =
      Except.ok { index := noun, body := es_query,
                  from_ := some params.skip, size := some params.limit } := by
  have hsame : (extractContains ext params).1 = params := by
    unfold extractContains
    rw [hplain]
  rw [hsame]
  simp [TryToBuildElasticsearchParams, hbuild, hcount]

/-- Witness of C6 on the request without a token (`skip` 5, `limit` 3). -/
theorem pagination_identity_witness :
    plainParams.count.truthy = false ∧
    containsPattern (searchText plainParams.search) = none ∧
    TryToBuildElasticsearchParams (sampleExt none plainParams ⟨[], 0, none⟩)
        (extractContains (sampleExt none plainParams ⟨[], 0, none⟩) plainParams).1
        "landsat".toList =
      Except.ok { index := "landsat".toList, body := searchText plainParams.search,
                  from_ := some (JsVal.num 5), size := some (JsVal.num 3) } :=
  ⟨rfl, by decide,
   pagination_identity (sampleExt none plainParams ⟨[], 0, none⟩) "landsat".toList plainParams
     (searchText plainParams.search) rfl (by decide) rfl⟩

/-- The engine parameters built for a hit-listing request with a containment
token: `from` is the request's `skip`, `size` is the ceiling. -/
theorem build_with_token (ext : Externals) (noun : List Char) (params : Params)
    (es_query : List Char)
    (hcount : params.count.truthy = false)
    (htoken : (containsPattern (searchText params.search)).isSome = true)
    (hbuild : ext.BuildQuery (extractContains ext params).1 = Except.ok es_query) :
    TryToBuildElasticsearchParams ext (extractContains ext params).1 noun =
      Except.ok { index := noun, body := es_query,
                  from_ := some params.skip, size := some (queryCeiling ext) } := by
  have hc : (extractContains ext params).1.count = params.count := by
    unfold extractContains
    cases containsPattern (searchText params.search) <;> rfl
  have hs : (extractContains ext params).1.skip = params.skip := by
    unfold extractContains
    cases containsPattern (searchText params.search) <;> rfl
  have hl : (extractContains ext params).1.limit = queryCeiling ext := by
    unfold extractContains
    cases hm : containsPattern (searchText params.search) with
    | none => rw [hm] at htoken; cases htoken
    | some m => rfl
  simp [TryToBuildElasticsearchParams, hbuild, hc, hs, hl, hcount]

/-- C8 as stated fails: for the request `search=contains:9,11`, `skip=5`,
`limit=3` the engine parameters carry `from` 5, not 0. -/
theorem containment_offset_counterexample :
    (containsPattern (searchText sampleParams.search)).isSome = true ∧
    sampleParams.count.truthy = false ∧
    sampleParams.skip = JsVal.num 5 ∧
    ∃ es, TryToBuildElasticsearchParams (sampleExt none sampleParams ⟨[], 0, none⟩)
        (extractContains (sampleExt none sampleParams ⟨[], 0, none⟩) sampleParams).1
        "landsat".toList = Except.ok es ∧
      es.from_ = some (JsVal.num 5) ∧ es.from_ ≠ some (JsVal.num 0) :=
  ⟨by decide, rfl, rfl, _,
   build_with_token (sampleExt none sampleParams ⟨[], 0, none⟩) "landsat".toList
     sampleParams _ rfl (by decide) rfl,
   rfl, by decide⟩

/-- C8 amended: for a hit-listing request whose clause holds a containment
token and for which `BuildQuery` succeeds on the rewritten request, the engine
parameters carry the caller's offset unchanged (`from` is `skip`), and `size` is
the ceiling. -/
theorem containment_offset_kept (ext : Externals) (noun : List Char) (params : Params)
    (es_query : List Char)
    (hcount : params.count.truthy = false)
    (htoken : (containsPattern (searchText params.search)).isSome = true)
    (hbuild : ext.BuildQuery (extractContains ext params).1 = Except.ok es_query) :
    TryToBuildElasticsearchParams ext (extractContains ext params).1 noun =
      Except.ok { index := noun, body := es_query,
                  from_ := some params.skip, size := some (queryCeiling ext) } :=
  build_with_token ext noun params es_query hcount htoken hbuild

/-- Witness of the amended C8 on the request `search=contains:9,11`, `skip=5`. -/
theorem containment_offset_kept_witness :
    sampleParams.count.truthy = false ∧
    (containsPattern (searchText sampleParams.search)).isSome = true ∧
    ∃ es_query, TryToBuildElasticsearchParams (sampleExt none sampleParams ⟨[], 0, none⟩)
        (extractContains (sampleExt none sampleParams ⟨[], 0, none⟩) sampleParams).1
        "landsat".toList =
      Except.ok { index := "landsat".toList, body := es_query,
                  from_ := some (JsVal.num 5), size := some (JsVal.num 1000000000) } :=
  ⟨rfl, by decide, _,
   containment_offset_kept (sampleExt none sampleParams ⟨[], 0, none⟩) "landsat".toList
     sampleParams _ rfl (by decide) rfl⟩

/-! ## Response assembly in `TrySearch` -/

/-- The rewrite of the sample containment request: the point is (9, 11), the
caller's limit 3 is kept as `userLimit`, and `skip` stays 5. -/
theorem extractContains_sample (body : EsBody) :
    extractContains (sampleExt none sampleParams body) sampleParams =
      ({ search := some (rangeClauses ["9".toList, "11".toList])
         count := JsVal.undefined
         skip := JsVal.num 5
         limit := JsVal.num 1000000000
         userLimit := JsVal.num 3 },
       some ["9".toList, "11".toList]) := by
  rfl

/-- The slice of an empty list is empty. -/
theorem jsSlice0_nil (stringEnd : List Char → SliceEnd) (v : JsVal) :
    jsSlice0 stringEnd ([] : List Item) v = [] := by
  cases v with
  | undefined => rfl
  | bool b => simp [jsSlice0, JsVal.sliceEnd]
  | num n => simp [jsSlice0, JsVal.sliceEnd]
  | str t =>
    simp only [jsSlice0, JsVal.sliceEnd]
    cases stringEnd t <;> simp

/-- The response of `TrySearch` for a hit listing with a containment point when
no hit passes the point-in-polygon test and the engine sent at least one hit. -/
theorem TrySearch_none_pass (ext : Externals) (params : Params)
    (es_search_params : EsSearchParams) (cLonLat : List (List Char)) (body : EsBody)
    (hcount : params.count.truthy = false)
    (hsearch : ext.search es_search_params = Except.ok body)
    (hhits : body.hits ≠ [])
    (hnone : ∀ r ∈ body.hits, ext.inside cLonLat (footprint (Item.scene r)) = false) :
    TrySearch ext params es_search_params (some cLonLat) =
      { sent := [{ status := 200
                   body := Body.json
                     { «meta» := { META with
                         results := some { skip := params.skip, limit := params.userLimit,
                                           total := JsVal.num 0 } }
                       results := [] } }]
        thrown := none } := by
  have hlen : ¬ body.hits.length = 0 := by
    intro h
    exact hhits (List.length_eq_zero.mp h)
  have hfilter : List.filter (fun result => ext.inside cLonLat (footprint result))
      (body.hits.map Item.scene) = [] := by
    rw [List.filter_eq_nil_iff]
    intro a ha
    obtain ⟨r, hr, rfl⟩ := List.mem_map.mp ha
    simp [hnone r hr]
  simp [TrySearch, hsearch, hcount, hlen, sendFiltered, sendJson, responseFilter, hfilter,
    jsSlice0_nil, HTTP_CODE, META]

/-- Every count request with a containment point and a non-empty list of term
buckets ends in a `TypeError`, and nothing is sent after what line 184 sent. -/
theorem TrySearch_count_with_point (ext : Externals) (params : Params)
    (es_search_params : EsSearchParams) (cLonLat : List (List Char)) (body : EsBody)
    (facet : FacetCount) (terms : List TermBucket)
    (hcount : params.count.truthy = true)
    (hsearch : ext.search es_search_params = Except.ok body)
    (hfacet : body.facets = some facet) (hterms : facet.terms = some terms)
    (hne : terms ≠ []) :
    (TrySearch ext params es_search_params (some cLonLat)).thrown =
        some JsException.typeError ∧
    ∀ s ∈ (TrySearch ext params es_search_params (some cLonLat)).sent,
      s.status ≠ 200 := by
  have hlen : terms.length ≠ 0 := by
    intro h
    exact hne (List.length_eq_zero.mp h)
  by_cases hh : body.hits.length = 0
  · simp [TrySearch, hsearch, hcount, hfacet, hterms, hlen, hh, sendFiltered,
      responseFilter, META, ApiError, HTTP_CODE]
  · simp [TrySearch, hsearch, hcount, hfacet, hterms, hlen, hh, sendFiltered,
      responseFilter, META]

/-- C7: for a hit-listing request whose engine result has zero hits, `TrySearch`
sends exactly one response, the 404 `NOT_FOUND` envelope: the call of
`response.json` with the success body, which the callback reaches after the
envelope, finds the response already sent and sends nothing. -/
theorem zero_hits_not_found (ext : Externals) (params : Params)
    (es_search_params : EsSearchParams) (cLonLat : Option (List (List Char)))
    (body : EsBody)
    (hcount : params.count.truthy = false)
    (hsearch : ext.search es_search_params = Except.ok body)
    (hhits : body.hits = []) :
    (TrySearch ext params es_search_params cLonLat).sent =
        [{ status := 404
           body := Body.error Code.NOT_FOUND "No matches found!".toList }] ∧
    ∀ s ∈ (TrySearch ext params es_search_params cLonLat).sent,
      ∀ r, s.body ≠ Body.json r := by
  have hsent : (TrySearch ext params es_search_params cLonLat).sent =
      [{ status := 404
         body := Body.error Code.NOT_FOUND "No matches found!".toList }] := by
    cases cLonLat with
    | none =>
      simp [TrySearch, hsearch, hcount, hhits, sendFiltered, sendJson, responseFilter,
        ApiError, HTTP_CODE]
    | some pt =>
      simp [TrySearch, hsearch, hcount, hhits, sendFiltered, sendJson, responseFilter,
        ApiError, HTTP_CODE, META]
  refine ⟨hsent, ?_⟩
  intro s hs r
  rw [hsent] at hs
  have hs2 : s = { status := 404
                   body := Body.error Code.NOT_FOUND "No matches found!".toList } := by
    simpa using hs
  rw [hs2]
  intro h
  cases h

/-- Witness of C7: the request `search=cloudCoverFull:[0 TO 20]`, `skip=5`,
`limit=3` with an engine answer of zero hits. -/
theorem zero_hits_not_found_witness :
    plainParams.count.truthy = false ∧
    (TrySearch (sampleExt none plainParams ⟨[], 0, none⟩) plainParams
        ⟨"landsat".toList, [], some (JsVal.num 5), some (JsVal.num 3)⟩ none).sent =
      [{ status := 404
         body := Body.error Code.NOT_FOUND "No matches found!".toList }] :=
  ⟨rfl,
   (zero_hits_not_found (sampleExt none plainParams ⟨[], 0, none⟩) plainParams
     ⟨"landsat".toList, [], some (JsVal.num 5), some (JsVal.num 3)⟩ none ⟨[], 0, none⟩
     rfl rfl rfl).1⟩

/-- C9, the code at the failing input: for the request `search=contains:9,11`,
`skip=5`, `limit=3`, when the engine returns one candidate whose footprint does
not contain the point, the handler sends a single response with status 200, an
empty results list and total 0, and no 404 envelope. -/
theorem empty_after_filter_sends_ok :
    turfInside ["9".toList, "11".toList] (footprint (Item.scene descendingScene)) = false ∧
    Endpoint (sampleExt none sampleParams ⟨[descendingScene], 1, none⟩) "landsat".toList [] =
      { sent := [{ status := 200
                   body := Body.json
                     { «meta» := { META with
                         results := some { skip := JsVal.num 5, limit := JsVal.num 3,
                                           total := JsVal.num 0 } }
                       results := [] } }]
        thrown := none } := by
  refine ⟨turfInside_descending, ?_⟩
  have hx := extractContains_sample ⟨[descendingScene], 1, none⟩
  simp only [Endpoint, TryToCheckApiParams, sampleExt] at hx ⊢
  rw [hx]
  simp only [TryToBuildElasticsearchParams]
  exact TrySearch_none_pass _ _ _ _ ⟨[descendingScene], 1, none⟩ rfl rfl (by simp)
    (by
      intro r hr
      have : r = descendingScene := by simpa using hr
      subst this
      exact turfInside_descending)

/-- C10, the code at the failing input: for the count request
`count=satellite_name`, `search=contains:9,11` and an engine answer with one
term bucket, `responseFilter` raises a `TypeError` at the assignment to
`meta.results.limit`, and no response is sent. -/
theorem count_with_token_throws :
    Endpoint (sampleExt none sampleCountParams
        ⟨[descendingScene], 1, some ⟨some [⟨"LANDSAT_8".toList, 7⟩], none⟩⟩)
        "landsat".toList [] =
      { sent := [], thrown := some JsException.typeError } := by
  rfl

/-! ## The coarse filter against the point-in-polygon test -/

/-- The abscissa at which the edge crosses the latitude of the point is at most
any bound on the abscissas of its two ends, when the edge straddles the
latitude. -/
theorem crossing_le (py xi yi xj yj M : ℚ)
    (hs : (yi ≤ py ∧ py < yj) ∨ (yj ≤ py ∧ py < yi))
    (hi : xi ≤ M) (hj : xj ≤ M) :
    (xj - xi) * (py - yi) / (yj - yi) + xi ≤ M := by
  rcases hs with ⟨h1, h2⟩ | ⟨h1, h2⟩
  · have hd : 0 < yj - yi := by linarith
    have : (xj - xi) * (py - yi) / (yj - yi) ≤ M - xi := by
      rw [div_le_iff₀ hd]
      nlinarith [mul_nonneg (sub_nonneg.mpr hi) (sub_nonneg.mpr (le_of_lt h2)),
        mul_nonneg (sub_nonneg.mpr hj) (sub_nonneg.mpr h1)]
    linarith
  · have hd : yj - yi < 0 := by linarith
    have : (xj - xi) * (py - yi) / (yj - yi) ≤ M - xi := by
      rw [div_le_iff_of_neg hd]
      nlinarith [mul_nonneg (sub_nonneg.mpr hi) (sub_nonneg.mpr h1),
        mul_nonneg (sub_nonneg.mpr hj) (sub_nonneg.mpr (le_of_lt h2))]
    linarith

/-- The abscissa of the crossing is at least any lower bound on the abscissas
of the two ends of a straddling edge. -/
theorem le_crossing (py xi yi xj yj m : ℚ)
    (hs : (yi ≤ py ∧ py < yj) ∨ (yj ≤ py ∧ py < yi))
    (hi : m ≤ xi) (hj : m ≤ xj) :
    m ≤ (xj - xi) * (py - yi) / (yj - yi) + xi := by
  rcases hs with ⟨h1, h2⟩ | ⟨h1, h2⟩
  · have hd : 0 < yj - yi := by linarith
    have : m - xi ≤ (xj - xi) * (py - yi) / (yj - yi) := by
      rw [le_div_iff₀ hd]
      nlinarith [mul_nonneg (sub_nonneg.mpr hi) (sub_nonneg.mpr (le_of_lt h2)),
        mul_nonneg (sub_nonneg.mpr hj) (sub_nonneg.mpr h1)]
    linarith
  · have hd : yj - yi < 0 := by linarith
    have : m - xi ≤ (xj - xi) * (py - yi) / (yj - yi) := by
      rw [le_div_iff_of_neg hd]
      nlinarith [mul_nonneg (sub_nonneg.mpr hi) (sub_nonneg.mpr h1),
        mul_nonneg (sub_nonneg.mpr hj) (sub_nonneg.mpr (le_of_lt h2))]
    linarith

/-- The straddling test of an edge, as a proposition. -/
theorem straddle_iff (py yi yj : ℚ) :
    (decide (yi > py) != decide (yj > py)) = true ↔
      ((yi ≤ py ∧ py < yj) ∨ (yj ≤ py ∧ py < yi)) := by
  by_cases h1 : yi > py <;> by_cases h2 : yj > py <;> simp [h1, h2] <;>
    first | exact le_of_lt ‹_› | exact le_of_not_lt ‹_›

/-- A counted edge straddles the latitude of the point, and the point lies
strictly left of the crossing. -/
theorem edgeCrosses_true (px py xi yi xj yj : ℚ)
    (h : edgeCrosses px py (xi, yi) (xj, yj) = true) :
    ((yi ≤ py ∧ py < yj) ∨ (yj ≤ py ∧ py < yi)) ∧
      px < (xj - xi) * (py - yi) / (yj - yi) + xi := by
  simp only [edgeCrosses, Bool.and_eq_true, decide_eq_true_eq] at h
  exact ⟨(straddle_iff py yi yj).mp h.1, h.2⟩

/-- Left of every vertex, an edge is counted exactly when it straddles the
latitude of the point. -/
theorem edgeCrosses_left (px py xi yi xj yj m : ℚ) (hpx : px < m)
    (hi : m ≤ xi) (hj : m ≤ xj) :
    edgeCrosses px py (xi, yi) (xj, yj) = (decide (yi > py) != decide (yj > py)) := by
  by_cases hs : (decide (yi > py) != decide (yj > py)) = true
  · have hlt : px < (xj - xi) * (py - yi) / (yj - yi) + xi :=
      lt_of_lt_of_le hpx (le_crossing py xi yi xj yj m ((straddle_iff py yi yj).mp hs) hi hj)
    simp only [edgeCrosses, hs, hlt, decide_True, Bool.and_self]
  · have hf : (decide (yi > py) != decide (yj > py)) = false := by simpa using hs
    simp only [edgeCrosses, hf, Bool.false_and]

/-- One step of the flag `isInside`. -/
theorem toggle_eq (c acc : Bool) : (if c = true then !acc else acc) = xor acc c := by
  cases c <;> cases acc <;> rfl

/-- The loop of `inRing` unrolled on the ring built by `responseFilter` for a
scene record: five steps, the first on the degenerate edge from the closing
vertex to the first one. -/
theorem inRing_footprint (r : SceneRecord) (lon lat : ℚ) :
    inRing (some lon) (some lat) (footprint (Item.scene r)) =
      xor (xor (xor (xor (xor false
        (edgeCrosses lon lat (r.lowerLeftCornerLongitude, r.lowerLeftCornerLatitude)
          (r.lowerLeftCornerLongitude, r.lowerLeftCornerLatitude)))
        (edgeCrosses lon lat (r.upperLeftCornerLongitude, r.upperLeftCornerLatitude)
          (r.lowerLeftCornerLongitude, r.lowerLeftCornerLatitude)))
        (edgeCrosses lon lat (r.upperRightCornerLongitude, r.upperRightCornerLatitude)
          (r.upperLeftCornerLongitude, r.upperLeftCornerLatitude)))
        (edgeCrosses lon lat (r.lowerRightCornerLongitude, r.lowerRightCornerLatitude)
          (r.upperRightCornerLongitude, r.upperRightCornerLatitude)))
        (edgeCrosses lon lat (r.lowerLeftCornerLongitude, r.lowerLeftCornerLatitude)
          (r.lowerRightCornerLongitude, r.lowerRightCornerLatitude)) := by
  simp only [inRing, footprint, List.getLast?, List.getLast, inRingLoop, jsEdgeCrosses,
    toggle_eq, Bool.false_xor]

/-- C4 as stated fails: the point (9, 11) passes the ray casting test against
the footprint of `tiltedScene` (upper left (0, 10), upper right (10, 12), lower
right (12, 2), lower left (2, 0)), yet the upper left latitude 10 is below the
latitude 11 of the point, so the first range constraint rejects the record. -/
theorem coarse_filter_counterexample :
    inRing (some 9) (some 11) (footprint (Item.scene tiltedScene)) = true ∧
    ¬ (tiltedScene.upperLeftCornerLatitude ≥ 11 ∧
        tiltedScene.lowerRightCornerLatitude ≤ 11 ∧
        tiltedScene.lowerLeftCornerLongitude ≤ 9 ∧
        tiltedScene.upperRightCornerLongitude ≥ 9) := by
  constructor
  · simp [inRing, inRingLoop, footprint, tiltedScene, jsEdgeCrosses, edgeCrosses]
    norm_num
  · simp [tiltedScene]
    norm_num

/-- C4 amended: for a scene record whose upper left corner is the northernmost,
lower right the southernmost, lower left the westernmost and upper right the
easternmost of its four corners, every point that passes the ray casting test
against the ring built by `responseFilter` satisfies the four range constraints
of the rewrite. -/
theorem coarse_filter_no_false_negative (r : SceneRecord) (lon lat : ℚ)
    (hext : cornersExtreme r)
    (hin : inRing (some lon) (some lat) (footprint (Item.scene r)) = true) :
    r.upperLeftCornerLatitude ≥ lat ∧ r.lowerRightCornerLatitude ≤ lat ∧
      r.lowerLeftCornerLongitude ≤ lon ∧ r.upperRightCornerLongitude ≥ lon := by
  obtain ⟨⟨hn1, hn2, hn3⟩, ⟨hs1, hs2⟩, ⟨hw1, hw2, hw3⟩, ⟨he1, he2⟩⟩ := hext
  rw [inRing_footprint] at hin
  have h0 : edgeCrosses lon lat (r.lowerLeftCornerLongitude, r.lowerLeftCornerLatitude)
      (r.lowerLeftCornerLongitude, r.lowerLeftCornerLatitude) = false := by
    simp [edgeCrosses]
  rw [h0] at hin
  -- the point is not west of the westernmost corner
  have hwest : r.lowerLeftCornerLongitude ≤ lon := by
    by_contra hlt
    have hlt2 : lon < r.lowerLeftCornerLongitude := lt_of_not_le hlt
    rw [edgeCrosses_left lon lat _ _ _ _ _ hlt2 hw1 (le_refl _),
      edgeCrosses_left lon lat _ _ _ _ _ hlt2 hw2 hw1,
      edgeCrosses_left lon lat _ _ _ _ _ hlt2 hw3 hw2,
      edgeCrosses_left lon lat _ _ _ _ _ hlt2 (le_refl _) hw3] at hin
    revert hin
    generalize decide (r.lowerLeftCornerLatitude > lat) = a
    generalize decide (r.upperLeftCornerLatitude > lat) = b
    generalize decide (r.upperRightCornerLatitude > lat) = c
    generalize decide (r.lowerRightCornerLatitude > lat) = d
    cases a <;> cases b <;> cases c <;> cases d <;> decide
  -- some edge is counted
  have hsome : edgeCrosses lon lat (r.upperLeftCornerLongitude, r.upperLeftCornerLatitude)
        (r.lowerLeftCornerLongitude, r.lowerLeftCornerLatitude) = true ∨
      edgeCrosses lon lat (r.upperRightCornerLongitude, r.upperRightCornerLatitude)
        (r.upperLeftCornerLongitude, r.upperLeftCornerLatitude) = true ∨
      edgeCrosses lon lat (r.lowerRightCornerLongitude, r.lowerRightCornerLatitude)
        (r.upperRightCornerLongitude, r.upperRightCornerLatitude) = true ∨
      edgeCrosses lon lat (r.lowerLeftCornerLongitude, r.lowerLeftCornerLatitude)
        (r.lowerRightCornerLongitude, r.lowerRightCornerLatitude) = true := by
    revert hin
    generalize edgeCrosses lon lat (r.upperLeftCornerLongitude, r.upperLeftCornerLatitude)
      (r.lowerLeftCornerLongitude, r.lowerLeftCornerLatitude) = e1
    generalize edgeCrosses lon lat (r.upperRightCornerLongitude, r.upperRightCornerLatitude)
      (r.upperLeftCornerLongitude, r.upperLeftCornerLatitude) = e2
    generalize edgeCrosses lon lat (r.lowerRightCornerLongitude, r.lowerRightCornerLatitude)
      (r.upperRightCornerLongitude, r.upperRightCornerLatitude) = e3
    generalize edgeCrosses lon lat (r.lowerLeftCornerLongitude, r.lowerLeftCornerLatitude)
      (r.lowerRightCornerLongitude, r.lowerRightCornerLatitude) = e4
    cases e1 <;> cases e2 <;> cases e3 <;> cases e4 <;> decide
  have heast_ul : r.upperLeftCornerLongitude ≤ r.upperRightCornerLongitude := he1
  have heast_ll : r.lowerLeftCornerLongitude ≤ r.upperRightCornerLongitude := hw2
  rcases hsome with h | h | h | h
  · obtain ⟨hs, hx⟩ := edgeCrosses_true _ _ _ _ _ _ h
    have hM := crossing_le lat _ _ _ _ r.upperRightCornerLongitude hs heast_ul heast_ll
    refine ⟨?_, ?_, hwest, le_of_lt (lt_of_lt_of_le hx hM)⟩
    · rcases hs with ⟨_, h2⟩ | ⟨_, h2⟩ <;> linarith
    · rcases hs with ⟨h1, _⟩ | ⟨h1, _⟩ <;> linarith
  · obtain ⟨hs, hx⟩ := edgeCrosses_true _ _ _ _ _ _ h
    have hM := crossing_le lat _ _ _ _ r.upperRightCornerLongitude hs (le_refl _) heast_ul
    refine ⟨?_, ?_, hwest, le_of_lt (lt_of_lt_of_le hx hM)⟩
    · rcases hs with ⟨_, h2⟩ | ⟨_, h2⟩ <;> linarith
    · rcases hs with ⟨h1, _⟩ | ⟨h1, _⟩ <;> linarith
  · obtain ⟨hs, hx⟩ := edgeCrosses_true _ _ _ _ _ _ h
    have hM := crossing_le lat _ _ _ _ r.upperRightCornerLongitude hs he2 (le_refl _)
    refine ⟨?_, ?_, hwest, le_of_lt (lt_of_lt_of_le hx hM)⟩
    · rcases hs with ⟨_, h2⟩ | ⟨_, h2⟩ <;> linarith
    · rcases hs with ⟨h1, _⟩ | ⟨h1, _⟩ <;> linarith
  · obtain ⟨hs, hx⟩ := edgeCrosses_true _ _ _ _ _ _ h
    have hM := crossing_le lat _ _ _ _ r.upperRightCornerLongitude hs heast_ll he2
    refine ⟨?_, ?_, hwest, le_of_lt (lt_of_lt_of_le hx hM)⟩
    · rcases hs with ⟨_, h2⟩ | ⟨_, h2⟩ <;> linarith
    · rcases hs with ⟨h1, _⟩ | ⟨h1, _⟩ <;> linarith

/-- Witness of the amended C4: the point (5, 5) inside `descendingScene`. -/
theorem coarse_filter_no_false_negative_witness :
    cornersExtreme descendingScene ∧
    inRing (some 5) (some 5) (footprint (Item.scene descendingScene)) = true ∧
    (descendingScene.upperLeftCornerLatitude ≥ 5 ∧
      descendingScene.lowerRightCornerLatitude ≤ 5 ∧
      descendingScene.lowerLeftCornerLongitude ≤ 5 ∧
      descendingScene.upperRightCornerLongitude ≥ 5) := by
  have hext : cornersExtreme descendingScene := by
    simp only [cornersExtreme, descendingScene]
    norm_num
  have hin : inRing (some 5) (some 5) (footprint (Item.scene descendingScene)) = true := by
    simp [inRing, inRingLoop, footprint, descendingScene, jsEdgeCrosses, edgeCrosses]
    norm_num
  exact ⟨hext, hin, coarse_filter_no_false_negative descendingScene 5 5 hext hin⟩

/-! ## The pattern on a clause with one containment token -/

/-- The runs of `takeWhile` and `dropWhile` rebuild the list. -/
theorem takeWhile_append_rest {p : Char → Bool} (b rest : List Char)
    (hb : b.dropWhile p = []) :
    (b ++ rest).takeWhile p = b ++ rest.takeWhile p ∧
      (b ++ rest).dropWhile p = rest.dropWhile p := by
  induction b with
  | nil => simp
  | cons x xs ih =>
    by_cases hx : p x = true
    · rw [List.dropWhile_cons_of_pos hx] at hb
      obtain ⟨h1, h2⟩ := ih hb
      simp [List.takeWhile_cons, List.dropWhile_cons, hx, h1, h2]
    · rw [List.dropWhile_cons_of_neg hx] at hb
      cases hb

/-- A run that stops inside `b` is not affected by what follows `b`. -/
theorem takeWhile_append_stop {p : Char → Bool} (b rest : List Char)
    (hb : b.dropWhile p ≠ []) :
    (b ++ rest).takeWhile p = b.takeWhile p ∧
      (b ++ rest).dropWhile p = b.dropWhile p ++ rest := by
  induction b with
  | nil => simp at hb
  | cons x xs ih =>
    by_cases hx : p x = true
    · rw [List.dropWhile_cons_of_pos hx] at hb
      obtain ⟨h1, h2⟩ := ih hb
      simp [List.takeWhile_cons, List.dropWhile_cons, hx, h1, h2]
    · simp [List.takeWhile_cons, List.dropWhile_cons, hx]

/-- A run of digits is empty in front of a text that does not start with one. -/
theorem takeWhile_digit_stop (rest : List Char)
    (h : ∀ c, rest.head? = some c → isDigit c = false) :
    rest.takeWhile isDigit = [] ∧ rest.dropWhile isDigit = rest := by
  cases rest with
  | nil => simp
  | cons c t =>
    have hc := h c rfl
    simp [List.takeWhile_cons, List.dropWhile_cons, hc]

/-- The literal is consumed exactly when it heads the text. -/
theorem dropLiteral_eq (lit s r : List Char) :
    dropLiteral lit s = some r ↔ s = lit ++ r := by
  induction lit generalizing s with
  | nil => simp [dropLiteral, eq_comm]
  | cons a l ih =>
    cases s with
    | nil => simp [dropLiteral]
    | cons c t =>
      by_cases hac : a = c
      · subst hac
        simp [dropLiteral, ih]
      · simp [dropLiteral, hac]
        intro h
        exact absurd h.symm hac

/-- What `matchUnsigned` returns splits the text, and holds digits and points
only. -/
theorem matchUnsigned_sound (b n r : List Char) (h : matchUnsigned b = some (n, r)) :
    b = n ++ r ∧ ∀ c ∈ n, isDigit c = true ∨ c = '.' := by
  unfold matchUnsigned at h
  have hsplit := List.takeWhile_append_dropWhile isDigit b
  have hdig : ∀ l : List Char, ∀ c ∈ l.takeWhile isDigit, isDigit c = true := by
    intro l c hc
    exact (List.mem_takeWhile_imp hc)
  by_cases hip : b.takeWhile isDigit = []
  · simp [hip] at h
  · by_cases hdot : (b.dropWhile isDigit).head? = some '.'
    · simp only [hip, hdot, if_true, if_false, Option.some.injEq, Prod.mk.injEq] at h
      obtain ⟨hn, hr⟩ := h
      have htail : b.dropWhile isDigit = '.' :: (b.dropWhile isDigit).tail := by
        cases hd : b.dropWhile isDigit with
        | nil => rw [hd] at hdot; simp at hdot
        | cons x xs =>
          rw [hd] at hdot
          simp at hdot
          simp [hdot]
      have hsplit2 := List.takeWhile_append_dropWhile isDigit (b.dropWhile isDigit).tail
      constructor
      · rw [← hn, ← hr]
        calc b = b.takeWhile isDigit ++ b.dropWhile isDigit := hsplit.symm
          _ = b.takeWhile isDigit ++ '.' :: (b.dropWhile isDigit).tail := by rw [← htail]
          _ = _ := by
            rw [List.append_assoc, List.cons_append, hsplit2]
      · intro c hc
        rw [← hn] at hc
        rcases List.mem_append.mp hc with h1 | h1
        · exact Or.inl (hdig _ c h1)
        · rcases List.mem_cons.mp h1 with h2 | h2
          · exact Or.inr h2
          · exact Or.inl (hdig _ c h2)
    · simp only [hip, hdot, if_false, Option.some.injEq, Prod.mk.injEq] at h
      obtain ⟨hn, hr⟩ := h
      constructor
      · rw [← hn, ← hr, hsplit]
      · intro c hc
        rw [← hn] at hc
        exact Or.inl (hdig _ c hc)

/-- What `matchNumber` returns splits the text, and holds digits, points and
minus signs only. -/
theorem matchNumber_sound (s n r : List Char) (h : matchNumber s = some (n, r)) :
    s = n ++ r ∧ ∀ c ∈ n, isDigit c = true ∨ c = '.' ∨ c = '-' := by
  unfold matchNumber at h
  by_cases hm : s.head? = some '-'
  · rw [if_pos hm] at h
    cases hu : matchUnsigned s.tail with
    | none => rw [hu] at h; cases h
    | some p =>
      obtain ⟨n1, r1⟩ := p
      rw [hu] at h
      simp only [Option.some.injEq, Prod.mk.injEq] at h
      obtain ⟨hn, hr⟩ := h
      obtain ⟨h1, h2⟩ := matchUnsigned_sound _ _ _ hu
      have hs : s = '-' :: s.tail := by
        cases s with
        | nil => simp at hm
        | cons x xs =>
          simp at hm
          simp [hm]
      constructor
      · rw [← hn, ← hr, List.cons_append, ← h1]
        exact hs
      · intro c hc
        rw [← hn] at hc
        rcases List.mem_cons.mp hc with h3 | h3
        · exact Or.inr (Or.inr h3)
        · rcases h2 c h3 with h4 | h4
          · exact Or.inl h4
          · exact Or.inr (Or.inl h4)
  · rw [if_neg hm] at h
    obtain ⟨h1, h2⟩ := matchUnsigned_sound _ _ _ h
    refine ⟨h1, ?_⟩
    intro c hc
    rcases h2 c hc with h4 | h4
    · exact Or.inl h4
    · exact Or.inr (Or.inl h4)

/-- An unsigned numeral followed by a text that does not carry it on is what
`matchUnsigned` takes. -/
theorem matchUnsigned_complete (n rest : List Char) (hn : isUnsigned n = true)
    (hstop : ∀ c, rest.head? = some c → isDigit c = false ∧ ('.' ∈ n ∨ c ≠ '.')) :
    matchUnsigned (n ++ rest) = some (n, rest) := by
  unfold isUnsigned at hn
  simp only [Bool.and_eq_true, Bool.not_eq_true', List.isEmpty_eq_false, Bool.or_eq_true,
    List.isEmpty_iff, beq_iff_eq, List.all_eq_true] at hn
  obtain ⟨hip, hr⟩ := hn
  have hsplit := List.takeWhile_append_dropWhile isDigit n
  have hrest := takeWhile_digit_stop rest (fun c hc => (hstop c hc).1)
  rcases hr with hr | ⟨hdot, hfp⟩
  · -- digits only
    obtain ⟨h1, h2⟩ := takeWhile_append_rest (p := isDigit) n rest hr
    have hn_eq : n.takeWhile isDigit = n := by
      rw [hr, List.append_nil] at hsplit
      exact hsplit
    have hnodot : ¬ ('.' ∈ n) := by
      intro hmem
      rw [← hn_eq] at hmem
      have := List.mem_takeWhile_imp hmem
      exact absurd this (by decide)
    have hne : ¬ (n = []) := by
      rw [← hn_eq]
      exact hip
    have hhead : ¬ (rest.head? = some '.') := by
      intro hh
      rcases (hstop '.' hh).2 with h3 | h3
      · exact hnodot h3
      · exact h3 rfl
    unfold matchUnsigned
    simp only [h1, h2, hrest.1, hrest.2, hne, hhead, if_false, List.append_nil]
  · -- digits, a point, digits
    have hrne : n.dropWhile isDigit ≠ [] := by
      intro h0
      rw [h0] at hdot
      simp at hdot
    obtain ⟨h1, h2⟩ := takeWhile_append_stop (p := isDigit) n rest hrne
    have htail : n.dropWhile isDigit = '.' :: (n.dropWhile isDigit).tail := by
      cases hd : n.dropWhile isDigit with
      | nil => exact absurd hd hrne
      | cons x xs =>
        rw [hd] at hdot
        simp at hdot
        simp [hdot]
    have hfp0 : (n.dropWhile isDigit).tail.dropWhile isDigit = [] := by
      rw [List.dropWhile_eq_nil_iff]
      exact hfp
    obtain ⟨h3, h4⟩ := takeWhile_append_rest (p := isDigit) (n.dropWhile isDigit).tail rest hfp0
    have hhead : (n.dropWhile isDigit ++ rest).head? = some '.' := by
      rw [htail]
      rfl
    have htl : (n.dropWhile isDigit ++ rest).tail = (n.dropWhile isDigit).tail ++ rest := by
      rw [htail]
      rfl
    unfold matchUnsigned
    simp only [h1, h2, hip, hhead, htl, h3, h4, hrest.1, hrest.2, if_true, if_false,
      List.append_nil]
    rw [← htail, hsplit]

/-- A numeral followed by a text that does not carry it on is what `matchNumber`
takes. -/
theorem matchNumber_complete (n rest : List Char) (hn : isNumeral n = true)
    (hstop : ∀ c, rest.head? = some c → isDigit c = false ∧ ('.' ∈ n ∨ c ≠ '.')) :
    matchNumber (n ++ rest) = some (n, rest) := by
  unfold isNumeral at hn
  by_cases hm : n.head? = some '-'
  · rw [if_pos hm] at hn
    cases n with
    | nil => simp at hm
    | cons x xs =>
      simp only [List.head?_cons, Option.some.injEq] at hm
      subst hm
      simp only [List.tail_cons] at hn
      have hstop2 : ∀ c, rest.head? = some c → isDigit c = false ∧ ('.' ∈ xs ∨ c ≠ '.') := by
        intro c hc
        obtain ⟨h1, h2⟩ := hstop c hc
        refine ⟨h1, ?_⟩
        rcases h2 with h2 | h2
        · rcases List.mem_cons.mp h2 with h3 | h3
          · exact absurd h3 (by decide)
          · exact Or.inl h3
        · exact Or.inr h2
      unfold matchNumber
      simp only [List.cons_append, List.head?_cons, if_true, List.tail_cons,
        matchUnsigned_complete xs rest hn hstop2]
  · rw [if_neg hm] at hn
    have hne : n ≠ [] := by
      intro h0
      subst h0
      simp [isUnsigned] at hn
    have hhead : (n ++ rest).head? = n.head? := by
      cases n with
      | nil => exact absurd rfl hne
      | cons x xs => rfl
    unfold matchNumber
    rw [hhead, if_neg hm]
    exact matchUnsigned_complete n rest hn hstop

/-- A numeral holds digits, points and minus signs only. -/
theorem isNumeral_chars (n : List Char) (hn : isNumeral n = true) :
    ∀ c ∈ n, isDigit c = true ∨ c = '.' ∨ c = '-' := by
  have h := matchNumber_complete n [] hn (by simp)
  rw [List.append_nil] at h
  exact (matchNumber_sound n n [] h).2

/-- The letter `c` is neither a digit, a point nor a minus sign. -/
theorem c_not_numeric : ¬ (isDigit 'c' = true ∨ 'c' = '.' ∨ 'c' = '-') := by decide

/-- What `matchCore` returns splits the text after the literal, holds no `c`,
and is found again on the text cut to any other tail. -/
theorem matchCore_sound (s g2 r : List Char) (h : matchCore s = some (g2, r)) :
    s = containsLit ++ g2 ++ r ∧ 'c' ∉ g2 := by
  unfold matchCore at h
  cases h0 : dropLiteral containsLit s with
  | none => simp [h0] at h
  | some r0 =>
    simp only [h0] at h
    have hs := (dropLiteral_eq _ _ _).mp h0
    cases h1 : matchNumber r0 with
    | none => simp [h1] at h
    | some p1 =>
      obtain ⟨n1, r1⟩ := p1
      simp only [h1] at h
      obtain ⟨hr0, hc1⟩ := matchNumber_sound _ _ _ h1
      cases r1 with
      | nil => cases h
      | cons c r2 =>
        by_cases hc : c = ','
        · subst hc
          simp only [if_true] at h
          cases h2 : matchNumber r2 with
          | none => simp [h2] at h
          | some p2 =>
            obtain ⟨n2, r3⟩ := p2
            simp only [h2] at h
            simp only [Option.some.injEq, Prod.mk.injEq] at h
            obtain ⟨hg, hr⟩ := h
            obtain ⟨hr2, hc2⟩ := matchNumber_sound _ _ _ h2
            constructor
            · rw [hs, hr0, hr2, ← hg, ← hr]
              simp [List.append_assoc]
            · rw [← hg]
              intro hmem
              rcases List.mem_append.mp hmem with h3 | h3
              · exact c_not_numeric (hc1 _ h3)
              · rcases List.mem_cons.mp h3 with h4 | h4
                · exact absurd h4 (by decide)
                · exact c_not_numeric (hc2 _ h4)
        · simp only [hc, if_false] at h
          cases h

/-- What `matchConj` returns splits the text and holds no `c`. -/
theorem matchConj_sound (s g r : List Char) (h : matchConj s = some (g, r)) :
    s = g ++ r ∧ 'c' ∉ g := by
  unfold matchConj at h
  split at h
  · rename_i a b c d e t
    by_cases hcond : (isSpace a && decide (b = 'A') && decide (c = 'N') && decide (d = 'D')
        && isSpace e) = true
    · rw [if_pos hcond] at h
      simp only [Option.some.injEq, Prod.mk.injEq] at h
      obtain ⟨hg, hr⟩ := h
      simp only [Bool.and_eq_true, decide_eq_true_eq] at hcond
      obtain ⟨⟨⟨⟨ha, hb⟩, hc⟩, hd⟩, he⟩ := hcond
      constructor
      · rw [← hg, ← hr]
        rfl
      · rw [← hg]
        intro hmem
        simp only [List.mem_cons, List.mem_singleton, List.not_mem_nil, or_false] at hmem
        rcases hmem with h1 | h1 | h1 | h1 | h1
        · rw [← h1] at ha
          exact absurd ha (by decide)
        · rw [← h1] at hb
          exact absurd hb (by decide)
        · rw [← h1] at hc
          exact absurd hc (by decide)
        · rw [← h1] at hd
          exact absurd hd (by decide)
        · rw [← h1] at he
          exact absurd he (by decide)
    · rw [if_neg hcond] at h
      cases h
  · cases h

/-- What `matchAt` returns: the optional group, the literal, group 2 and the
remainder rebuild the text; neither group holds a `c`; and `matchCore` finds
group 2 at the literal. -/
theorem matchAt_sound (s : List Char) (g1 : Option (List Char)) (g2 r : List Char)
    (h : matchAt s = some (g1, g2, r)) :
    s = g1.getD [] ++ (containsLit ++ g2 ++ r) ∧ 'c' ∉ g1.getD [] ∧ 'c' ∉ g2 ∧
      matchCore (containsLit ++ g2 ++ r) = some (g2, r) := by
  unfold matchAt at h
  cases hj : matchConj s with
  | none =>
    simp only [hj] at h
    cases hc : matchCore s with
    | none => simp [hc] at h
    | some p =>
      obtain ⟨x, y⟩ := p
      simp only [hc] at h
      simp only [Option.some.injEq, Prod.mk.injEq] at h
      obtain ⟨h1, h2, h3⟩ := h
      subst h1 h2 h3
      obtain ⟨hs, hno⟩ := matchCore_sound _ _ _ hc
      refine ⟨by simpa using hs, by simp, hno, ?_⟩
      rw [← hs]
      exact hc
  | some q =>
    obtain ⟨g, t⟩ := q
    simp only [hj] at h
    obtain ⟨hsg, hgc⟩ := matchConj_sound _ _ _ hj
    cases hc : matchCore t with
    | some p =>
      obtain ⟨x, y⟩ := p
      simp only [hc] at h
      simp only [Option.some.injEq, Prod.mk.injEq] at h
      obtain ⟨h1, h2, h3⟩ := h
      subst h1 h2 h3
      obtain ⟨hs, hno⟩ := matchCore_sound _ _ _ hc
      refine ⟨?_, by simpa using hgc, hno, ?_⟩
      · rw [hsg, hs]
        rfl
      · rw [← hs]
        exact hc
    | none =>
      simp only [hc] at h
      cases hc2 : matchCore s with
      | none => simp [hc2] at h
      | some p =>
        obtain ⟨x, y⟩ := p
        simp only [hc2] at h
        simp only [Option.some.injEq, Prod.mk.injEq] at h
        obtain ⟨h1, h2, h3⟩ := h
        subst h1 h2 h3
        obtain ⟨hs, hno⟩ := matchCore_sound _ _ _ hc2
        refine ⟨by simpa using hs, by simp, hno, ?_⟩
        rw [← hs]
        exact hc2

/-- The first match of `containsPattern`: it rebuilds the text, neither group
holds a `c`, `matchCore` finds group 2 at the literal, and the pattern matches
at no earlier position. -/
theorem containsPattern_sound (s : List Char) (m : Match)
    (h : containsPattern s = some m) :
    s = m.before ++ m.g1.getD [] ++ (containsLit ++ m.g2 ++ m.after) ∧
      'c' ∉ m.g1.getD [] ∧ 'c' ∉ m.g2 ∧
      matchCore (containsLit ++ m.g2 ++ m.after) = some (m.g2, m.after) ∧
      ∀ p t, s = p ++ t → p.length < m.before.length → matchAt t = none := by
  induction s generalizing m with
  | nil => simp [containsPattern] at h
  | cons c cs ih =>
    unfold containsPattern at h
    cases ha : matchAt (c :: cs) with
    | some q =>
      obtain ⟨g1, g2, r⟩ := q
      rw [ha] at h
      simp only [Option.some.injEq] at h
      subst h
      obtain ⟨h1, h2, h3, h4⟩ := matchAt_sound _ _ _ _ ha
      refine ⟨by simpa using h1, h2, h3, h4, ?_⟩
      intro p t _ hlt
      simp at hlt
    | none =>
      rw [ha] at h
      cases hr : containsPattern cs with
      | none => simp [hr] at h
      | some m0 =>
        rw [hr] at h
        simp only [Option.some.injEq] at h
        subst h
        obtain ⟨h1, h2, h3, h4, h5⟩ := ih m0 hr
        refine ⟨?_, h2, h3, h4, ?_⟩
        · simp only [List.cons_append]
          rw [← h1]
        · intro p t hpt hlt
          cases p with
          | nil =>
            simp only [List.nil_append] at hpt
            rw [← hpt]
            exact ha
          | cons x xs =>
            simp only [List.cons_append, List.cons.injEq] at hpt
            apply h5 xs t hpt.2
            simpa using hlt

/-- A text in which the pattern matches at some position has a first match. -/
theorem containsPattern_complete (b s : List Char) (h : matchAt s ≠ none) :
    containsPattern (b ++ s) ≠ none := by
  induction b with
  | nil =>
    cases s with
    | nil => exact absurd (by rfl) h
    | cons c cs =>
      simp only [List.nil_append]
      unfold containsPattern
      cases ha : matchAt (c :: cs) with
      | none => exact absurd ha h
      | some q => simp
  | cons x xs ih =>
    simp only [List.cons_append]
    unfold containsPattern
    cases ha : matchAt (x :: (xs ++ s)) with
    | some q => simp
    | none =>
      cases hr : containsPattern (xs ++ s) with
      | none => exact absurd hr ih
      | some m0 => simp

/-- The condition `endsNumeral`, as used by `matchNumber_complete`. -/
theorem endsNumeral_stop (lat post : List Char) (h : endsNumeral lat post = true) :
    ∀ c, post.head? = some c → isDigit c = false ∧ ('.' ∈ lat ∨ c ≠ '.') := by
  intro c hc
  cases post with
  | nil => simp at hc
  | cons x xs =>
    simp only [List.head?_cons, Option.some.injEq] at hc
    subst hc
    simp only [endsNumeral, Bool.and_eq_true, Bool.not_eq_true', Bool.or_eq_true,
      bne_iff_ne, ne_eq] at h
    refine ⟨h.1, ?_⟩
    rcases h.2 with h3 | h3
    · exact Or.inl (by simpa using h3)
    · exact Or.inr h3

/-- On a well-formed token, `matchCore` captures `lon,lat` and leaves `post`. -/
theorem matchCore_token (lon lat post : List Char) (hlon : isNumeral lon = true)
    (hlat : isNumeral lat = true) (hend : endsNumeral lat post = true) :
    matchCore (containsLit ++ (lon ++ ',' :: lat) ++ post) =
      some (lon ++ ',' :: lat, post) := by
  have h0 : dropLiteral containsLit (containsLit ++ (lon ++ ',' :: lat) ++ post) =
      some (lon ++ ',' :: (lat ++ post)) := by
    rw [dropLiteral_eq]
    simp [List.append_assoc]
  have h1 : matchNumber (lon ++ ',' :: (lat ++ post)) = some (lon, ',' :: (lat ++ post)) := by
    apply matchNumber_complete lon _ hlon
    intro c hc
    simp only [List.head?_cons, Option.some.injEq] at hc
    subst hc
    exact ⟨by decide, Or.inr (by decide)⟩
  have h2 : matchNumber (lat ++ post) = some (lat, post) :=
    matchNumber_complete lat post hlat (endsNumeral_stop lat post hend)
  unfold matchCore
  simp only [h0, h1, h2, if_true]

/-- On a well-formed token the whole pattern matches, without the optional
group. -/
theorem matchAt_token (lon lat post : List Char) (hlon : isNumeral lon = true)
    (hlat : isNumeral lat = true) (hend : endsNumeral lat post = true) :
    matchAt (containsLit ++ (lon ++ ',' :: lat) ++ post) =
      some (none, lon ++ ',' :: lat, post) := by
  have hj : matchConj (containsLit ++ (lon ++ ',' :: lat) ++ post) = none := by
    simp [containsLit, matchConj, isSpace]
  unfold matchAt
  simp only [hj, matchCore_token lon lat post hlon hlat hend]

/-- A text without a comma is a single field. -/
theorem splitComma_single (s : List Char) (h : ',' ∉ s) : splitComma s = [s] := by
  induction s with
  | nil => rfl
  | cons c cs ih =>
    have hc : c ≠ ',' := fun e => h (by simp [e])
    have hcs : ',' ∉ cs := fun e => h (List.mem_cons_of_mem _ e)
    simp [splitComma, hc, ih hcs]

/-- Two comma-free fields around one comma. -/
theorem splitComma_pair (a b : List Char) (ha : ',' ∉ a) (hb : ',' ∉ b) :
    splitComma (a ++ ',' :: b) = [a, b] := by
  induction a with
  | nil => simp [splitComma, splitComma_single b hb]
  | cons c cs ih =>
    have hc : c ≠ ',' := fun e => ha (by simp [e])
    have hcs : ',' ∉ cs := fun e => ha (List.mem_cons_of_mem _ e)
    simp [splitComma, hc, ih hcs]

/-- A numeral holds no comma. -/
theorem isNumeral_no_comma (n : List Char) (hn : isNumeral n = true) : ',' ∉ n := by
  intro hmem
  have h := isNumeral_chars n hn ',' hmem
  revert h
  decide

/-- The first match of a clause with exactly one well-formed token is that
token: the text before the literal is `pre ++ A`, group 2 is `lon,lat` and the
text after the match is `post`. -/
theorem first_match_is_token (pre A lon lat post : List Char) (m : Match)
    (hlon : isNumeral lon = true) (hlat : isNumeral lat = true)
    (hend : endsNumeral lat post = true)
    (hm : containsPattern (tokenClause pre A lon lat post) = some m)
    (hafter : containsPattern m.after = none) :
    m.before ++ m.g1.getD [] = pre ++ A ∧ m.g2 = lon ++ ',' :: lat ∧ m.after = post := by
  obtain ⟨hs, hg1, hg2, hcore, hmin⟩ := containsPattern_sound _ _ hm
  have htok := matchCore_token lon lat post hlon hlat hend
  have hat := matchAt_token lon lat post hlon hlat hend
  have hclause : tokenClause pre A lon lat post =
      (pre ++ A) ++ (containsLit ++ (lon ++ ',' :: lat) ++ post) := by
    simp [tokenClause, containsLit, List.append_assoc]
  have hcK : ∀ x : List Char, (containsLit ++ x).head? = some 'c' := fun _ => rfl
  have hKtail : 'c' ∉ containsLit.tail := by decide
  -- the two decompositions of the clause
  have heq : (m.before ++ m.g1.getD []) ++ (containsLit ++ m.g2 ++ m.after) =
      (pre ++ A) ++ (containsLit ++ (lon ++ ',' :: lat) ++ post) := by
    rw [← hs, hclause]
  have huv : m.before ++ m.g1.getD [] = pre ++ A := by
    rcases List.append_eq_append_iff.mp heq with ⟨a', hv, hX⟩ | ⟨c', hu, hY⟩
    · -- the first match starts at or before the token
      cases a' with
      | nil => simpa using hv.symm
      | cons x a'' =>
        exfalso
        have hX2 : (containsLit ++ m.g2) ++ m.after =
            (x :: a'') ++ (containsLit ++ (lon ++ ',' :: lat) ++ post) := by
          simpa [List.append_assoc] using hX
        rcases List.append_eq_append_iff.mp hX2 with ⟨b, hb1, hb2⟩ | ⟨d, hd1, hd2⟩
        · -- the token lies in the text after the first match
          have := containsPattern_complete b _ (by rw [hat]; simp)
          rw [← hb2] at this
          exact this hafter
        · cases d with
          | nil =>
            have := containsPattern_complete [] _ (by rw [hat]; simp)
            simp only [List.nil_append] at hd2 this
            rw [hd2] at this
            exact this hafter
          | cons y d' =>
            -- the letter c of the token would lie inside the first match
            have hy : y = 'c' := by
              have := congrArg List.head? hd2
              rw [List.append_assoc, hcK] at this
              simpa using this.symm
            subst hy
            have hmem : 'c' ∈ (containsLit ++ m.g2).tail := by
              rw [hd1]
              simp
            have : (containsLit ++ m.g2).tail = containsLit.tail ++ m.g2 := rfl
            rw [this] at hmem
            rcases List.mem_append.mp hmem with h1 | h1
            · exact hKtail h1
            · exact hg2 h1
    · cases c' with
      | nil => simpa using hu
      | cons y c'' =>
        exfalso
        -- the token starts before the literal of the first match
        have hy : 'c' = y := by
          have := congrArg List.head? hY
          rw [List.append_assoc, hcK] at this
          simpa using this
        subst hy
        have hlen : ¬ (pre ++ A).length < m.before.length := by
          intro hlt
          have := hmin (pre ++ A) _ hclause hlt
          rw [hat] at this
          cases this
        rcases List.append_eq_append_iff.mp hu with ⟨a', ha1, ha2⟩ | ⟨d, hd1, hd2⟩
        · apply hg1
          rw [ha2]
          simp
        · have hd0 : d = [] := by
            have := congrArg List.length hd1
            rw [List.length_append] at this
            have hd' : d.length = 0 := by omega
            exact List.length_eq_zero.mp hd'
          subst hd0
          apply hg1
          have : 'c' :: c'' = m.g1.getD [] := by simpa using hd2
          rw [← this]
          simp
  have hrest : containsLit ++ m.g2 ++ m.after =
      containsLit ++ (lon ++ ',' :: lat) ++ post := by
    rw [huv] at heq
    exact List.append_cancel_left heq
  rw [hrest, htok] at hcore
  simp only [Option.some.injEq, Prod.mk.injEq] at hcore
  exact ⟨huv, hcore.1.symm, hcore.2.symm⟩

/-- C3: for a clause `pre + A + "contains:" + lon + "," + lat + post` that holds
exactly one match of `containsPattern`, the token being that match (`A` is empty
or a white-space-delimited `AND`, `lon` and `lat` are numerals, and `lat` is the
latitude numeral of the token: `post` does not carry it on with a digit, nor
with a point when `lat` has none), the clause rewritten by `Endpoint` is
`pre + A`, the four range constraints built from `lat` and `lon`, and `post`:
the token is gone and the text outside it is unchanged. -/
theorem rewrite_single_token (ext : Externals) (params : Params)
    (pre A lon lat post : List Char)
    (hsearch : params.search = some (tokenClause pre A lon lat post))
    (_hA : isConj A = true) (hlon : isNumeral lon = true) (hlat : isNumeral lat = true)
    (hend : endsNumeral lat post = true)
    (hone : exactlyOneMatch (tokenClause pre A lon lat post) = true) :
    (extractContains ext params).1.search = some (claimedClause pre A lon lat post) := by
  unfold exactlyOneMatch at hone
  cases hm : containsPattern (tokenClause pre A lon lat post) with
  | none => simp [hm] at hone
  | some m =>
    simp only [hm, Option.isNone_iff_eq_none] at hone
    obtain ⟨h1, h2, h3⟩ := first_match_is_token pre A lon lat post m hlon hlat hend hm hone
    have hsplit : splitComma m.g2 = [lon, lat] := by
      rw [h2]
      exact splitComma_pair lon lat (isNumeral_no_comma lon hlon)
        (isNumeral_no_comma lat hlat)
    have htext : searchText params.search = tokenClause pre A lon lat post := by
      rw [hsearch]
      rfl
    unfold extractContains
    simp only [htext, hm, hsplit, replaceMatch, h3]
    rw [← List.append_assoc m.before, h1]
    simp [claimedClause, rangeClauses, elemText, List.append_assoc]

/-- Witness of C3: the clause `x AND contains:-100.5,40.2 AND y`. -/
theorem rewrite_single_token_witness :
    isConj " AND ".toList = true ∧ isNumeral "-100.5".toList = true ∧
    isNumeral "40.2".toList = true ∧ endsNumeral "40.2".toList " AND y".toList = true ∧
    exactlyOneMatch
      (tokenClause "x".toList " AND ".toList "-100.5".toList "40.2".toList " AND y".toList)
        = true ∧
    (extractContains (sampleExt none sampleParams ⟨[], 0, none⟩)
        { sampleParams with
            search := some (tokenClause "x".toList " AND ".toList "-100.5".toList
              "40.2".toList " AND y".toList) }).1.search =
      some (claimedClause "x".toList " AND ".toList "-100.5".toList "40.2".toList
        " AND y".toList) :=
  ⟨by decide, by decide, by decide, by decide, by decide,
   rewrite_single_token (sampleExt none sampleParams ⟨[], 0, none⟩) _
     "x".toList " AND ".toList "-100.5".toList "40.2".toList " AND y".toList rfl
     (by decide) (by decide) (by decide) (by decide) (by decide)⟩

end LandsatApi
